import Mathlib

/-!
Verification of the response-splitting and error-classification core of the
CodeLingo repository (`app/openai_service.py`).  Strings are modelled as
`List Char`; the Python string primitives used by the source (`in`, `split`,
`replace`, `strip`, `startswith`, `lower`) are given executable definitions
with the same semantics on the inputs the source uses.
-/

/-- Python whitespace test for `str.strip()` restricted to the ASCII
whitespace characters, which are the only ones the source manipulates. -/
def isPySpace (c : Char) : Bool :=
  c = ' ' || c = '\t' || c = '\n' || c = '\r' || c = '\x0b' || c = '\x0c'

/-- Python `s.strip()`: drop whitespace from both ends. -/
def pyStrip (s : List Char) : List Char :=
  ((s.dropWhile isPySpace).reverse.dropWhile isPySpace).reverse

/-- Python substring test `pat in s`. -/
def containsSub (s pat : List Char) : Bool :=
  match s with
  | [] => pat.isEmpty
  | c :: t => pat.isPrefixOf (c :: t) || containsSub t pat

/-- Scanner for `pySplit`: when `skip` is positive the scanner is inside a
separator occurrence and consumes that many characters without testing;
at `skip = 0` it tests for a separator occurrence at the current position. -/
def pySplitGo (sep : List Char) : Nat → List Char → List Char → List (List Char)
  | _, [], acc => [acc.reverse]
  | skip + 1, _ :: rest, acc => pySplitGo sep skip rest acc
  | 0, c :: rest, acc =>
    if sep.isPrefixOf (c :: rest) then
      acc.reverse :: pySplitGo sep (sep.length - 1) rest []
    else
      pySplitGo sep 0 rest (c :: acc)

/-- Python `s.split(sep)` for a non-empty separator: split on every
non-overlapping occurrence, scanning left to right. -/
def pySplit (sep s : List Char) : List (List Char) :=
  if sep = [] then [s] else pySplitGo sep 0 s []

/-- Scanner for `replaceAll`, with the same skip discipline as `pySplitGo`. -/
def replaceGo (pat rep : List Char) : Nat → List Char → List Char
  | _, [] => []
  | skip + 1, _ :: rest => replaceGo pat rep skip rest
  | 0, c :: rest =>
    if pat.isPrefixOf (c :: rest) then
      rep ++ replaceGo pat rep (pat.length - 1) rest
    else
      c :: replaceGo pat rep 0 rest

/-- Python `s.replace(pat, rep)` for a non-empty pattern: replace every
non-overlapping occurrence, scanning left to right. -/
def replaceAll (pat rep s : List Char) : List Char :=
  if pat = [] then s else replaceGo pat rep 0 s

/-- Everything after the first newline: Python `s.split(chr(10), 1)[-1]`
under the guard that the string contains a newline. -/
def afterFirstNl : List Char → List Char
  | [] => []
  | c :: rest => if c = '\n' then rest else afterFirstNl rest

/-- The elements at odd indices 1, 3, 5, … of a list:
Python `for i in range(1, len(xs), 2)`. -/
def oddIdx : List (List Char) → List (List Char)
  | [] => []
  | [_] => []
  | _ :: b :: rest => b :: oddIdx rest

/- String constants appearing in `generate_code_from_description`. -/

def codeMarker : List Char := "CODE:".data

def explMarker : List Char := "EXPLANATION:".data

def fence : List Char := "```".data

def nl : List Char := ['\n']

def pythonTag : List Char := "python".data

def javascriptTag : List Char := "javascript".data

def htmlTag : List Char := "html".data

def cssTag : List Char := "css".data

/-- The fixed code-indicative keyword list of strategy 3
(`app/openai_service.py:181`). -/
def codeKeywords : List (List Char) :=
  ["def ", "function ", "class ", "import ", "const ", "let ", "<html", "<div", "<?php"].map String.data

def seeCodeAboveImpl : List Char := "See code above for implementation.".data

def implementsMsg : List Char := "This code implements the requested functionality.".data

def seeCodeAboveDetails : List Char := "See code above for details.".data

/-- Which branch of the strategy chain in
`generate_code_from_description` produced the result. -/
inductive SplitStrategy where
  | markerTags
  | fencedCodeBlock
  | keywordHeuristic
  | plainText
deriving DecidableEq, Repr

/-- The `code_part` / `explanation_part` pair computed by the strategy
chain, tagged with the branch that produced it. -/
structure SplitResult where
  code : List Char
  explanation : List Char
  strategy : SplitStrategy
deriving DecidableEq, Repr

/-- The language-tag test of the fenced-block loop
(`app/openai_service.py:160`): the stripped block starts with the requested
language or one of the fixed tags. -/
def isTaggedBlock (language block : List Char) : Bool :=
  language.isPrefixOf block || pythonTag.isPrefixOf block ||
    javascriptTag.isPrefixOf block || htmlTag.isPrefixOf block ||
    cssTag.isPrefixOf block

/-- The assignment made for a tagged block (`app/openai_service.py:161`-165):
drop the tag line when the block has a newline, else keep the block. -/
def taggedAssign (block : List Char) : List Char :=
  if containsSub block nl then pyStrip (afterFirstNl block) else block

/-- The assignment made for an untagged block, and also the post-loop
fallback formula (`app/openai_service.py:167` and 177):
`block.split(chr(10), 1)[-1].strip() if chr(10) in block else block.strip()`. -/
def untaggedAssign (block : List Char) : List Char :=
  if containsSub block nl then pyStrip (afterFirstNl block) else pyStrip block

/-- The fenced-block selection loop (`app/openai_service.py:156`-167):
walk the odd-indexed blocks in order; a tagged block always overwrites the
current candidate, an untagged one only when the candidate is empty. -/
def chooseCode (language : List Char) : List (List Char) → List Char → List Char
  | [], codePart => codePart
  | b :: rest, codePart =>
    if isTaggedBlock language (pyStrip b) then
      chooseCode language rest (taggedAssign (pyStrip b))
    else if codePart = [] then
      chooseCode language rest (untaggedAssign (pyStrip b))
    else
      chooseCode language rest codePart

/-- The strategy chain of `generate_code_from_description`
(`app/openai_service.py:144`-189), as a pure function of the raw completion
text and the requested language. -/
def splitCompletion (responseText language : List Char) : SplitResult :=
  if containsSub responseText codeMarker && containsSub responseText explMarker then
    { code := pyStrip (replaceAll codeMarker [] ((pySplit explMarker responseText).headD []))
      explanation := pyStrip ((pySplit explMarker responseText).getD 1 [])
      strategy := .markerTags }
  else if containsSub responseText fence then
    { code :=
        if chooseCode language (oddIdx (pySplit fence responseText)) [] = [] ∧
            3 ≤ (pySplit fence responseText).length then
          untaggedAssign ((pySplit fence responseText).getD 1 [])
        else
          chooseCode language (oddIdx (pySplit fence responseText)) []
      explanation :=
        if 2 < (pySplit fence responseText).length then
          pyStrip ((pySplit fence responseText).getLastD [])
        else
          seeCodeAboveImpl
      strategy := .fencedCodeBlock }
  else if codeKeywords.any (fun kw => containsSub responseText kw) then
    { code := responseText
      explanation := implementsMsg
      strategy := .keywordHeuristic }
  else
    { code := responseText
      explanation := seeCodeAboveDetails
      strategy := .plainText }

/-- The JSON-style dictionary returned by the service functions on the
success path: `explain_code` returns no code key at all, modelled as
`code = none`. -/
structure ApiResponse where
  code : Option (List Char)
  explanation : List Char
  success : Bool
deriving DecidableEq, Repr

/-- The success-path return value of `generate_code_from_description`
(`app/openai_service.py:214`-218). -/
def generateSuccess (responseText language : List Char) : ApiResponse :=
  { code := some (splitCompletion responseText language).code
    explanation := (splitCompletion responseText language).explanation
    success := true }

/-- The success-path return value of `explain_code`
(`app/openai_service.py:458`-461): the raw completion is the explanation and
the dictionary carries no code key. -/
def explainSuccess (explanation : List Char) : ApiResponse :=
  { code := none
    explanation := explanation
    success := true }

/-- The error categories distinguished by the exception handler of
`generate_code_from_description` (`app/openai_service.py:252`-327); the
identical handler appears again in `explain_code`. -/
inductive ErrorCategory where
  | connection
  | timeout
  | quotaExceeded
  | rateLimited
  | invalidApiKey
  | forbidden
  | generic
deriving DecidableEq, Repr

/-- The data the handler extracts from the caught exception: `str(e)`,
the optional `e.response.status_code`, and the optional error type from the
response body. -/
structure UpstreamFailure where
  message : List Char
  statusCode : Option Nat
  errorType : Option (List Char)
deriving DecidableEq, Repr

/-- The outcome of the handler: which branch fired and the user-facing
`error_message` it built. -/
structure ClassifiedError where
  category : ErrorCategory
  message : List Char
deriving DecidableEq, Repr

/- The fixed message templates of the handler, transcribed from
`app/openai_service.py:257`-327. -/

def connectionMsg : List Char :=
  "⚠️ Connection Error\n\nUnable to connect to OpenAI API. Please check your internet connection and try again.".data

def timeoutMsg : List Char :=
  "⚠️ Request Timeout\n\nThe request to OpenAI API timed out. Please try again.".data

def quotaPre : List Char :=
  "⚠️ OpenAI API Quota Exceeded\n\nYour OpenAI account has exceeded its quota or has no available credits. To fix this:\n\n1. Check your OpenAI account billing: https://platform.openai.com/account/billing\n2. Verify your API key belongs to the account with the balance\n3. Check if there are any spending limits set on your account\n4. Ensure your payment method is valid and up to date\n\nNote: If you just added credits, it may take a few minutes to process.\n\nError details: ".data

def quotaPost : List Char :=
  "\n\nFor more information, visit: https://platform.openai.com/docs/guides/error-codes".data

def quotaMsg (errorDetails : List Char) : List Char :=
  quotaPre ++ errorDetails ++ quotaPost

def rateLimitPre : List Char :=
  "⚠️ Rate Limit Exceeded\n\nYou\x27re making requests too quickly. Please wait a moment and try again.\n\nRate limits are separate from your account balance. Even with credits, OpenAI enforces rate limits to ensure fair usage.\n\nIf this persists, you may need to:\n1. Wait a few minutes before trying again\n2. Reduce the frequency of your requests\n3. Check your rate limits: https://platform.openai.com/account/limits\n\nError details: ".data

def rateLimitMsg (errorDetails : List Char) : List Char :=
  rateLimitPre ++ errorDetails

def invalidKeyPre : List Char :=
  "⚠️ Invalid API Key\n\nYour OpenAI API key is invalid or not configured correctly.\n\nPlease verify:\n1. The API key in your .env file is correct\n2. The API key hasn\x27t been revoked\n3. You\x27ve restarted the application after updating the .env file\n4. The API key belongs to the account with the balance\n\nError details: ".data

def invalidKeyMsg (errorDetails : List Char) : List Char :=
  invalidKeyPre ++ errorDetails

def forbiddenMsg : List Char :=
  "⚠️ Access Forbidden\n\nYour API key doesn\x27t have permission to access this resource. Please check your OpenAI account permissions and API key configuration.".data

def genericPre : List Char :=
  "⚠️ OpenAI API Error\n\nError: ".data

def genericPost : List Char :=
  "\n\nPlease check:\n1. Your API key is correct and active\n2. Your account has sufficient credits\n3. Your internet connection is working\n4. The OpenAI API service is available\n\nFor more information, visit: https://platform.openai.com/docs/guides/error-codes".data

def genericMsg (errorDetails : List Char) : List Char :=
  genericPre ++ errorDetails ++ genericPost

/-- `error_lower = error_details.lower()` (`app/openai_service.py:253`). -/
def errorLower (f : UpstreamFailure) : List Char :=
  f.message.map Char.toLower

/- The literal substrings probed by the classification chain. -/

def connectionKw : List Char := "connection".data

def connectKw : List Char := "connect".data

def networkKw : List Char := "network".data

def timeoutKw : List Char := "timeout".data

def timedOutKw : List Char := "timed out".data

def code429Kw : List Char := "429".data

def insufficientQuotaKw : List Char := "insufficient_quota".data

def code401Kw : List Char := "401".data

def unauthorizedKw : List Char := "unauthorized".data

def invalidApiKeyKw : List Char := "invalid api key".data

def code403Kw : List Char := "403".data

def forbiddenKw : List Char := "forbidden".data

def permissionKw : List Char := "permission".data

/-- Branch guard of `app/openai_service.py:256`. -/
def connCond (f : UpstreamFailure) : Bool :=
  containsSub (errorLower f) connectionKw || containsSub (errorLower f) connectKw ||
    containsSub (errorLower f) networkKw

/-- Branch guard of `app/openai_service.py:262`. -/
def timeoutCond (f : UpstreamFailure) : Bool :=
  containsSub (errorLower f) timeoutKw || containsSub (errorLower f) timedOutKw

/-- Branch guard of `app/openai_service.py:268`: note that the substring
test for 429 runs on the raw message, not the lower-cased one. -/
def cond429 (f : UpstreamFailure) : Bool :=
  f.statusCode == some 429 || containsSub f.message code429Kw

/-- Inner guard of `app/openai_service.py:270` distinguishing quota
exhaustion from plain rate limiting. -/
def quotaCond (f : UpstreamFailure) : Bool :=
  f.errorType == some insufficientQuotaKw ||
    containsSub (errorLower f) insufficientQuotaKw

/-- Branch guard of `app/openai_service.py:297`. -/
def cond401 (f : UpstreamFailure) : Bool :=
  f.statusCode == some 401 || containsSub f.message code401Kw ||
    containsSub (errorLower f) unauthorizedKw ||
    containsSub (errorLower f) invalidApiKeyKw

/-- Branch guard of `app/openai_service.py:309`. -/
def cond403 (f : UpstreamFailure) : Bool :=
  f.statusCode == some 403 || containsSub f.message code403Kw ||
    containsSub (errorLower f) forbiddenKw ||
    containsSub (errorLower f) permissionKw

/-- The error-classification chain of the exception handler
(`app/openai_service.py:256`-327): fixed priority order, first match wins,
defaulting to the generic template that embeds the raw message. -/
def classifyError (f : UpstreamFailure) : ClassifiedError :=
  if connCond f then
    { category := .connection, message := connectionMsg }
  else if timeoutCond f then
    { category := .timeout, message := timeoutMsg }
  else if cond429 f then
    if quotaCond f then
      { category := .quotaExceeded, message := quotaMsg f.message }
    else
      { category := .rateLimited, message := rateLimitMsg f.message }
  else if cond401 f then
    { category := .invalidApiKey, message := invalidKeyMsg f.message }
  else if cond403 f then
    { category := .forbidden, message := forbiddenMsg }
  else
    { category := .generic, message := genericMsg f.message }

/-- The stripped odd-indexed blocks that pass the language-tag test of the
fenced-block loop, in source order. -/
def taggedBlocks (language : List Char) (blocks : List (List Char)) : List (List Char) :=
  (blocks.map pyStrip).filter (fun b => isTaggedBlock language b)

/-- Marker-strategy input on which the claimed field descriptions break:
both markers occur twice. -/
def c1ex : List Char := "CODE: a CODE: b EXPLANATION: c EXPLANATION: d".data

/-- A well-behaved marker-strategy input with one occurrence of each marker. -/
def c1w : List Char := "CODE: x EXPLANATION: y".data

/-- A plain-text completion: no markers, no fences, no code keywords. -/
def c2hello : List Char := "hello world".data

/-- The fenced segment of `c3ex`: untagged and spanning two lines. -/
def c3seg : List Char := "\nfoo\nbar\n".data

/-- A completion with a single untagged multi-line fenced block. -/
def c3ex : List Char := "```\nfoo\nbar\n```".data

/-- The spec example for the fenced strategy. -/
def c4ex : List Char := "```python\nprint(1)\n```\nDone.".data

/-- A keyword-strategy completion containing the `def ` keyword. -/
def c8ex : List Char := "def add(a, b): return a + b".data

/-- A completion with two python-tagged fenced blocks. -/
def c10ex : List Char := "```python\na\n``` mid ```python\nb\n``` end".data

/-- The spec example failure carrying only a connection-refused message. -/
def exConnRefused : UpstreamFailure :=
  { message := "Connection refused".data, statusCode := none, errorType := none }

/-- The spec example failure for a plain rate limit: status 429 with no
quota signal. -/
def exRateLimit : UpstreamFailure :=
  { message := "rate limit".data, statusCode := some 429, errorType := none }

/-- The spec example failure for quota exhaustion: status 429 with the
insufficient-quota signal in both the message and the error type. -/
def exQuota : UpstreamFailure :=
  { message := "insufficient_quota exceeded".data
    statusCode := some 429
    errorType := some "insufficient_quota".data }

/-- The spec example failure matching none of the specific conditions. -/
def exBadRequest : UpstreamFailure :=
  { message := "bad request".data, statusCode := some 418, errorType := none }

/-- A failure whose message carries both a timeout and a network signal. -/
def exNetworkTimeout : UpstreamFailure :=
  { message := "network timeout".data, statusCode := none, errorType := none }

/-! ### Basic lemmas about the Python string primitives -/

/-- The empty pattern is a substring of every string. -/
theorem containsSub_nil_pat (s : List Char) : containsSub s [] = true := by
  cases s <;> simp [containsSub, List.isPrefixOf]

/-- A list is a Boolean prefix of itself followed by anything. -/
theorem isPrefixOf_append_self (l t : List Char) : l.isPrefixOf (l ++ t) = true := by
  rw [ List.isPrefixOf_iff_prefix]
  exact List.prefix_append l t

/-- A string embedded between two others is a substring of the whole. -/
theorem containsSub_append_middle (a m b : List Char) : containsSub (a ++ m ++ b) m = true := by
  induction a with
  | nil =>
    cases m with
    | nil => simpa using containsSub_nil_pat b
    | cons c t =>
      have h := isPrefixOf_append_self (c :: t) b
      rw [List.cons_append] at h
      simp [containsSub, h]
  | cons c t ih =>
    have hh : containsSub ((c :: t) ++ m ++ b) m =
        (m.isPrefixOf (c :: (t ++ m ++ b)) || containsSub (t ++ m ++ b) m) := rfl
    rw [hh, ih, Bool.or_true]

/-- The split scanner never returns an empty list of parts. -/
theorem pySplitGo_ne_nil (sep : List Char) (s : List Char) :
    ∀ (skip : Nat) (acc : List Char), pySplitGo sep skip s acc ≠ [] := by
  induction s with
  | nil => intro skip acc; cases skip <;> simp [pySplitGo]
  | cons c rest ih =>
    intro skip acc
    cases skip with
    | zero =>
      by_cases h : sep.isPrefixOf (c :: rest)
      · simp [pySplitGo, h]
      · simpa [pySplitGo, h] using ih 0 (c :: acc)
    | succ k => simpa [pySplitGo] using ih k acc

/-- When the separator occurs in the string, the scanner yields at least
two parts. -/
theorem two_le_pySplitGo (sep : List Char) (hsep : sep ≠ []) (s : List Char) :
    ∀ acc, containsSub s sep = true → 2 ≤ (pySplitGo sep 0 s acc).length := by
  induction s with
  | nil =>
    intro acc h
    have : sep = [] := by simpa [containsSub] using h
    exact absurd this hsep
  | cons c rest ih =>
    intro acc h
    by_cases hp : sep.isPrefixOf (c :: rest)
    · have h1 : pySplitGo sep (sep.length - 1) rest [] ≠ [] := pySplitGo_ne_nil sep rest _ []
      have h2 : 1 ≤ (pySplitGo sep (sep.length - 1) rest []).length := List.length_pos.mpr h1
      simp [pySplitGo, hp]
      omega
    · have h' : containsSub rest sep = true := by
        have hh : containsSub (c :: rest) sep = (sep.isPrefixOf (c :: rest) || containsSub rest sep) := rfl
        rw [hh] at h
        simpa [hp] using h
      simpa [pySplitGo, hp] using ih (c :: acc) h'

/-- When a non-empty separator occurs in the string, `pySplit` yields at
least two parts, so index 1 is a real index. -/
theorem two_le_pySplit (sep s : List Char) (hsep : sep ≠ []) (h : containsSub s sep = true) :
    2 ≤ (pySplit sep s).length := by
  simp only [pySplit, if_neg hsep]
  exact two_le_pySplitGo sep hsep s [] h

/-! ### Lemmas about stripping and first-line removal -/

/-- The head of `dropWhile p` never satisfies `p`. -/
theorem head_dropWhile_false (p : Char → Bool) (l : List Char) :
    ∀ c, (l.dropWhile p).head? = some c → p c = false := by
  induction l with
  | nil => intro c h; simp at h
  | cons a t ih =>
    intro c h
    by_cases hp : p a = true
    · rw [List.dropWhile_cons, if_pos hp] at h
      exact ih c h
    · rw [List.dropWhile_cons, if_neg hp] at h
      simp at h
      have ha : p a = false := by revert hp; cases p a <;> simp
      rw [← h]
      exact ha

/-- The last character of a stripped string is never whitespace. -/
theorem pyStrip_getLast_not_space (s : List Char) (c : Char)
    (h : (pyStrip s).getLast? = some c) : isPySpace c = false := by
  rw [pyStrip, List.getLast?_reverse] at h
  exact head_dropWhile_false isPySpace _ c h

/-- A string whose last character is not whitespace strips to a non-empty
string. -/
theorem pyStrip_ne_nil (s : List Char) (c : Char) (hl : s.getLast? = some c)
    (hc : isPySpace c = false) : pyStrip s ≠ [] := by
  intro hnil
  rw [pyStrip, List.reverse_eq_nil_iff] at hnil
  have hall : ∀ x ∈ List.dropWhile isPySpace s, isPySpace x = true := by
    intro x hx
    exact List.dropWhile_eq_nil_iff.mp hnil x (List.mem_reverse.mpr hx)
  cases hd : List.dropWhile isPySpace s with
  | nil =>
    have hmem : c ∈ s := List.mem_of_mem_getLast? (Option.mem_def.mpr hl)
    have := List.dropWhile_eq_nil_iff.mp hd c hmem
    simp [this] at hc
  | cons d t =>
    have hsplit := List.takeWhile_append_dropWhile isPySpace s
    have hgl : s.getLast? =
        (List.dropWhile isPySpace s).getLast?.or (List.takeWhile isPySpace s).getLast? := by
      conv_lhs => rw [← hsplit]
      exact List.getLast?_append
    rw [hd] at hgl
    obtain ⟨e, he⟩ : ∃ e, (d :: t).getLast? = some e := by
      cases hgg : (d :: t : List Char).getLast? with
      | none => exact absurd (List.getLast?_eq_none_iff.mp hgg) (by simp)
      | some e => exact ⟨e, rfl⟩
    rw [he] at hgl
    simp only [Option.or] at hgl
    rw [hl] at hgl
    have hce : c = e := by simpa using hgl
    have hmem : e ∈ (d :: t : List Char) := List.mem_of_mem_getLast? (Option.mem_def.mpr he)
    rw [← hd] at hmem
    have := hall e hmem
    rw [← hce] at this
    simp [this] at hc

/-- If a string contains a newline but nothing follows the first one,
the string ends with that newline. -/
theorem afterFirstNl_eq_nil_getLast (s : List Char) (h : containsSub s nl = true)
    (h2 : afterFirstNl s = []) : s.getLast? = some '\n' := by
  induction s with
  | nil => simp [containsSub, nl] at h
  | cons c rest ih =>
    by_cases hc : c = '\n'
    · subst hc
      have hstep : afterFirstNl ('\n' :: rest) = rest := by simp [afterFirstNl]
      rw [hstep] at h2
      subst h2
      simp
    · have hstep : afterFirstNl (c :: rest) = afterFirstNl rest := by simp [afterFirstNl, hc]
      rw [hstep] at h2
      have hpre : nl.isPrefixOf (c :: rest) = false := by
        simp [nl, List.isPrefixOf]
        intro hcc
        exact absurd hcc.symm hc
      have hcont : containsSub rest nl = true := by
        have hh : containsSub (c :: rest) nl = (nl.isPrefixOf (c :: rest) || containsSub rest nl) := rfl
        rw [hh, hpre] at h
        simpa using h
      have hrest := ih hcont h2
      have hrne : rest ≠ [] := by
        intro hr
        rw [hr] at hrest
        simp at hrest
      cases rest with
      | nil => exact absurd rfl hrne
      | cons d t => rw [List.getLast?_cons_cons]; exact hrest

/-- Dropping everything up to and including the first newline preserves the
last character, provided something is left. -/
theorem afterFirstNl_getLast_eq (s : List Char) (h : afterFirstNl s ≠ []) :
    (afterFirstNl s).getLast? = s.getLast? := by
  induction s with
  | nil => simp [afterFirstNl] at h
  | cons c rest ih =>
    by_cases hc : c = '\n'
    · subst hc
      have hstep : afterFirstNl ('\n' :: rest) = rest := by simp [afterFirstNl]
      rw [hstep] at h ⊢
      cases rest with
      | nil => exact absurd rfl h
      | cons d t => rw [List.getLast?_cons_cons]
    · have hstep : afterFirstNl (c :: rest) = afterFirstNl rest := by simp [afterFirstNl, hc]
      rw [hstep] at h ⊢
      have hrne : rest ≠ [] := by
        intro hr
        rw [hr] at h
        simp [afterFirstNl] at h
      rw [ih h]
      cases rest with
      | nil => exact absurd rfl hrne
      | cons d t => rw [List.getLast?_cons_cons]

/-! ### The fenced-block loop: tagged blocks overwrite, untagged ones do not -/

/-- A block that passes the tag test is non-empty, as long as the requested
language is a non-empty string. -/
theorem isTaggedBlock_ne_nil (language block : List Char) (hlang : language ≠ [])
    (ht : isTaggedBlock language block = true) : block ≠ [] := by
  intro hb
  subst hb
  rw [isTaggedBlock] at ht
  have h1 : pythonTag.isPrefixOf ([] : List Char) = false := by decide
  have h2 : javascriptTag.isPrefixOf ([] : List Char) = false := by decide
  have h3 : htmlTag.isPrefixOf ([] : List Char) = false := by decide
  have h4 : cssTag.isPrefixOf ([] : List Char) = false := by decide
  rw [h1, h2, h3, h4] at ht
  simp at ht
  exact hlang ht

/-- The assignment performed for a tagged block is always a non-empty
string when the requested language is non-empty: either the block itself,
or the stripped remainder after the tag line, whose last character is the
non-whitespace last character of the block. -/
theorem taggedAssign_ne_nil (language b : List Char) (hlang : language ≠ [])
    (ht : isTaggedBlock language (pyStrip b) = true) : taggedAssign (pyStrip b) ≠ [] := by
  have hbne : pyStrip b ≠ [] := isTaggedBlock_ne_nil language _ hlang ht
  obtain ⟨c, hc⟩ : ∃ c, (pyStrip b).getLast? = some c := by
    cases hg : (pyStrip b).getLast? with
    | none => exact absurd (List.getLast?_eq_none_iff.mp hg) hbne
    | some c => exact ⟨c, rfl⟩
  have hcs : isPySpace c = false := pyStrip_getLast_not_space b c hc
  rw [taggedAssign]
  by_cases hnl : containsSub (pyStrip b) nl = true
  · rw [if_pos hnl]
    have hafne : afterFirstNl (pyStrip b) ≠ [] := by
      intro hnil
      have hlast := afterFirstNl_eq_nil_getLast (pyStrip b) hnl hnil
      rw [hc] at hlast
      have hcnl : c = '\n' := by simpa using hlast
      rw [hcnl] at hcs
      exact absurd hcs (by decide)
    have hgl : (afterFirstNl (pyStrip b)).getLast? = some c := by
      rw [afterFirstNl_getLast_eq _ hafne, hc]
    exact pyStrip_ne_nil _ c hgl hcs
  · rw [if_neg hnl]
    exact hbne

/-- When no remaining block is tagged, a non-empty candidate survives the
rest of the loop unchanged. -/
theorem chooseCode_no_tagged (language : List Char) (l : List (List Char)) :
    ∀ acc, taggedBlocks language l = [] → acc ≠ [] → chooseCode language l acc = acc := by
  induction l with
  | nil => intro acc _ _; rfl
  | cons b rest ih =>
    intro acc htb hacc
    have hb : isTaggedBlock language (pyStrip b) = false := by
      by_contra hb'
      have hb'' : isTaggedBlock language (pyStrip b) = true := by
        revert hb'; cases isTaggedBlock language (pyStrip b) <;> simp
      rw [taggedBlocks] at htb
      simp [List.filter_cons, hb''] at htb
    have hrest : taggedBlocks language rest = [] := by
      rw [taggedBlocks] at htb ⊢
      simpa [List.filter_cons, hb] using htb
    rw [chooseCode]
    rw [hb]
    simp only [Bool.false_eq_true, if_false, if_neg hacc]
    exact ih acc hrest hacc

/-- The default of `getLastD` is irrelevant on a non-empty list. -/
theorem getLastD_of_ne_nil {α : Type} (l : List α) (d e : α) (h : l ≠ []) :
    l.getLastD d = l.getLastD e := by
  cases hg : l.getLast? with
  | none => exact absurd (List.getLast?_eq_none_iff.mp hg) h
  | some x =>
    rw [List.getLastD_eq_getLast?, List.getLastD_eq_getLast?, hg]
    rfl

/-- `getLastD` of a non-empty list is one of its elements. -/
theorem getLastD_mem {α : Type} (l : List α) (d : α) (h : l ≠ []) : l.getLastD d ∈ l := by
  cases hg : l.getLast? with
  | none => exact absurd (List.getLast?_eq_none_iff.mp hg) h
  | some x =>
    rw [List.getLastD_eq_getLast?, hg]
    exact List.mem_of_mem_getLast? (Option.mem_def.mpr hg)

/-- As long as some block is tagged, the final candidate of the loop is the
assignment made for the last tagged block, regardless of the incoming
candidate: tagged matches overwrite unconditionally and later untagged
blocks cannot replace the resulting non-empty candidate. -/
theorem chooseCode_last_tagged (language : List Char) (hlang : language ≠ [])
    (l : List (List Char)) :
    ∀ acc, taggedBlocks language l ≠ [] →
      chooseCode language l acc = taggedAssign ((taggedBlocks language l).getLastD []) := by
  induction l with
  | nil => intro acc h; simp [taggedBlocks] at h
  | cons b rest ih =>
    intro acc h
    by_cases hb : isTaggedBlock language (pyStrip b) = true
    · have hTB : taggedBlocks language (b :: rest) = pyStrip b :: taggedBlocks language rest := by
        simp [taggedBlocks, List.filter_cons, hb]
      have hstep : chooseCode language (b :: rest) acc =
          chooseCode language rest (taggedAssign (pyStrip b)) := by
        rw [chooseCode, hb]
        simp
      by_cases hr : taggedBlocks language rest = []
      · rw [hTB, hr, hstep]
        rw [chooseCode_no_tagged language rest _ hr (taggedAssign_ne_nil language b hlang hb)]
        rfl
      · rw [hTB, hstep, ih _ hr]
        congr 1
        rw [List.getLastD_cons]
        exact (getLastD_of_ne_nil _ _ _ hr).symm
    · have hb' : isTaggedBlock language (pyStrip b) = false := by
        revert hb; cases isTaggedBlock language (pyStrip b) <;> simp
      have hTB : taggedBlocks language (b :: rest) = taggedBlocks language rest := by
        simp [taggedBlocks, List.filter_cons, hb']
      rw [hTB] at h ⊢
      by_cases ha : acc = []
      · have hstep : chooseCode language (b :: rest) acc =
            chooseCode language rest (untaggedAssign (pyStrip b)) := by
          rw [chooseCode, hb']
          simp only [Bool.false_eq_true, if_false, if_pos ha]
        rw [hstep]
        exact ih _ h
      · have hstep : chooseCode language (b :: rest) acc = chooseCode language rest acc := by
          rw [chooseCode, hb']
          simp only [Bool.false_eq_true, if_false, if_neg ha]
        rw [hstep]
        exact ih _ h

/-! ### Claim theorems -/

/-- C1 (counterexample): on an input containing `CODE:` and `EXPLANATION:`
twice each, the code field is not the prefix with only the leading `CODE:`
token stripped, and the explanation field is not everything after the first
`EXPLANATION:`: the source removes every `CODE:` occurrence and keeps only
the part up to the second `EXPLANATION:`. -/
theorem c1_counterexample :
    containsSub c1ex codeMarker = true ∧ containsSub c1ex explMarker = true ∧
    (splitCompletion c1ex pythonTag).code = "a  b".data ∧
    (splitCompletion c1ex pythonTag).explanation = "c".data ∧
    "a  b".data ≠ "a CODE: b".data ∧
    "c".data ≠ "c EXPLANATION: d".data := by
  decide

/-- C1 (amended): for every raw text containing both `CODE:` and
`EXPLANATION:`, the marker strategy is used; the code field is the text
before the first `EXPLANATION:` with every occurrence of `CODE:` removed
and whitespace trimmed, and the explanation field is the chunk between the
first `EXPLANATION:` and the following one (everything after it when it
occurs only once), trimmed; splitting at the marker yields at least two
parts, so both fields are well defined. -/
theorem c1_marker_strategy (s language : List Char)
    (hc : containsSub s codeMarker = true) (he : containsSub s explMarker = true) :
    splitCompletion s language =
      { code := pyStrip (replaceAll codeMarker [] ((pySplit explMarker s).headD []))
        explanation := pyStrip ((pySplit explMarker s).getD 1 [])
        strategy := SplitStrategy.markerTags } ∧
    2 ≤ (pySplit explMarker s).length := by
  constructor
  · simp [splitCompletion, hc, he]
  · exact two_le_pySplit explMarker s (by decide) he

/-- C1 (witness): the amended statement instantiated at a one-occurrence
marker input. -/
theorem c1_marker_strategy_witness :
    splitCompletion c1w pythonTag =
      { code := pyStrip (replaceAll codeMarker [] ((pySplit explMarker c1w).headD []))
        explanation := pyStrip ((pySplit explMarker c1w).getD 1 [])
        strategy := SplitStrategy.markerTags } ∧
    2 ≤ (pySplit explMarker c1w).length :=
  c1_marker_strategy c1w pythonTag (by decide) (by decide)

/-- C2 (code bug): on the empty completion, and on a plain-text completion,
the final branch stores the whole input in the code field and a fixed
non-empty placeholder in the explanation field, although its own comment
says the response should be treated as the explanation. -/
theorem c2_plaintext_bug :
    splitCompletion [] pythonTag =
      { code := [], explanation := seeCodeAboveDetails, strategy := SplitStrategy.plainText } ∧
    seeCodeAboveDetails ≠ [] ∧
    splitCompletion c2hello pythonTag =
      { code := c2hello, explanation := seeCodeAboveDetails, strategy := SplitStrategy.plainText } := by
  decide

/-- C3 (counterexample): for a single untagged multi-line fenced block the
chosen code candidate is the block with its first line dropped, not the
whole block content. -/
theorem c3_counterexample :
    isTaggedBlock pythonTag (pyStrip c3seg) = false ∧
    (splitCompletion c3ex pythonTag).strategy = SplitStrategy.fencedCodeBlock ∧
    (splitCompletion c3ex pythonTag).code = "bar".data ∧
    "bar".data ≠ pyStrip c3seg ∧
    "bar".data ≠ c3seg := by
  decide

/-- C3 (amended): for every odd-indexed fenced segment that does not begin
with a recognized language tag, the loop step uses the segment content with
its first line dropped and re-trimmed when the stripped segment contains a
newline, and the stripped segment otherwise, and it does so only when the
code candidate so far is empty (first match wins for untagged blocks). -/
theorem c3_untagged_step (language b : List Char) (rest : List (List Char)) (acc : List Char)
    (h : isTaggedBlock language (pyStrip b) = false) :
    chooseCode language (b :: rest) acc =
      chooseCode language rest (if acc = [] then untaggedAssign (pyStrip b) else acc) := by
  by_cases ha : acc = [] <;> simp [chooseCode, h, ha]

/-- C3 (witness): the amended loop step instantiated on the untagged
two-line segment, starting from the empty candidate. -/
theorem c3_untagged_step_witness :
    chooseCode pythonTag [c3seg] [] = untaggedAssign (pyStrip c3seg) :=
  (c3_untagged_step pythonTag c3seg [] [] (by decide)).trans (by decide)

/-- C4: every completion without the marker pair but with a fence uses the
fenced strategy; its explanation is the trimmed final segment when more
than two segments exist and a fixed placeholder otherwise; in particular
the spec example yields code `print(1)` and explanation `Done.`. -/
theorem c4_fenced_strategy (s language : List Char)
    (hm : (containsSub s codeMarker && containsSub s explMarker) = false)
    (hf : containsSub s fence = true) :
    (splitCompletion s language).strategy = SplitStrategy.fencedCodeBlock ∧
    (splitCompletion s language).explanation =
      (if 2 < (pySplit fence s).length then pyStrip ((pySplit fence s).getLastD [])
        else seeCodeAboveImpl) ∧
    splitCompletion c4ex pythonTag =
      { code := "print(1)".data, explanation := "Done.".data, strategy := SplitStrategy.fencedCodeBlock } := by
  refine ⟨?_, ?_, by decide⟩ <;> simp [splitCompletion, hm, hf]

/-- C4 (witness): the fenced-strategy statement instantiated at the spec
example input. -/
theorem c4_fenced_strategy_witness :
    (splitCompletion c4ex pythonTag).strategy = SplitStrategy.fencedCodeBlock ∧
    (splitCompletion c4ex pythonTag).explanation =
      (if 2 < (pySplit fence c4ex).length then pyStrip ((pySplit fence c4ex).getLastD [])
        else seeCodeAboveImpl) ∧
    splitCompletion c4ex pythonTag =
      { code := "print(1)".data, explanation := "Done.".data, strategy := SplitStrategy.fencedCodeBlock } :=
  c4_fenced_strategy c4ex pythonTag (by decide) (by decide)

/-- C5: when neither the connection nor the timeout branch fires and the
429 condition holds, the category is quota-exceeded exactly when the
insufficient-quota signal is present, and rate-limited otherwise. -/
theorem c5_429_split (f : UpstreamFailure)
    (h1 : connCond f = false) (h2 : timeoutCond f = false) (h3 : cond429 f = true) :
    ((classifyError f).category = ErrorCategory.quotaExceeded ↔ quotaCond f = true) ∧
    (quotaCond f = false → (classifyError f).category = ErrorCategory.rateLimited) := by
  by_cases hq : quotaCond f = true
  · simp [classifyError, h1, h2, h3, hq]
  · have hq' : quotaCond f = false := by revert hq; cases quotaCond f <;> simp
    simp [classifyError, h1, h2, h3, hq']

/-- C5 (witness): the two 429 examples of the spec, classified by the theorem. -/
theorem c5_429_split_witness :
    (classifyError exRateLimit).category = ErrorCategory.rateLimited ∧
    (classifyError exQuota).category = ErrorCategory.quotaExceeded :=
  ⟨(c5_429_split exRateLimit (by decide) (by decide) (by decide)).2 (by decide),
    (c5_429_split exQuota (by decide) (by decide) (by decide)).1.mpr (by decide)⟩

/-- C6: a message containing both the timeout and the network substrings is
classified as a connection error: the connection branch is tested first. -/
theorem c6_connection_over_timeout (f : UpstreamFailure)
    (_h1 : containsSub (errorLower f) timeoutKw = true)
    (h2 : containsSub (errorLower f) networkKw = true) :
    (classifyError f).category = ErrorCategory.connection := by
  have hc : connCond f = true := by
    rw [connCond, h2]
    simp
  simp [classifyError, hc]

/-- C6 (witness): the priority statement instantiated on a message carrying
both signals. -/
theorem c6_connection_over_timeout_witness :
    (classifyError exNetworkTimeout).category = ErrorCategory.connection :=
  c6_connection_over_timeout exNetworkTimeout (by decide) (by decide)

/-- C7: a failure matching none of the specific conditions falls into
the generic category, whose display message embeds the raw failure message
verbatim as a substring. -/
theorem c7_generic_default (f : UpstreamFailure)
    (h1 : connCond f = false) (h2 : timeoutCond f = false) (h3 : cond429 f = false)
    (h4 : cond401 f = false) (h5 : cond403 f = false) :
    (classifyError f).category = ErrorCategory.generic ∧
    containsSub (classifyError f).message f.message = true := by
  have hcl : classifyError f = { category := ErrorCategory.generic, message := genericMsg f.message } := by
    simp [classifyError, h1, h2, h3, h4, h5]
  rw [hcl]
  exact ⟨rfl, containsSub_append_middle genericPre f.message genericPost⟩

/-- C7 (witness): the generic fallback instantiated at the bad-request
example of the spec. -/
theorem c7_generic_default_witness :
    (classifyError exBadRequest).category = ErrorCategory.generic ∧
    containsSub (classifyError exBadRequest).message exBadRequest.message = true :=
  c7_generic_default exBadRequest (by decide) (by decide) (by decide) (by decide) (by decide)

/-- C8: a completion with no marker pair, no fence, and at least one code
keyword takes the keyword branch: code is the full input and the
explanation a fixed placeholder. -/
theorem c8_keyword_strategy (s language : List Char)
    (hm : (containsSub s codeMarker && containsSub s explMarker) = false)
    (hf : containsSub s fence = false)
    (hk : codeKeywords.any (fun kw => containsSub s kw) = true) :
    splitCompletion s language =
      { code := s, explanation := implementsMsg, strategy := SplitStrategy.keywordHeuristic } := by
  simp [splitCompletion, hm, hf, hk]

/-- C8 (witness): the keyword statement instantiated at a `def `-bearing
completion. -/
theorem c8_keyword_strategy_witness :
    splitCompletion c8ex pythonTag =
      { code := c8ex, explanation := implementsMsg, strategy := SplitStrategy.keywordHeuristic } :=
  c8_keyword_strategy c8ex pythonTag (by decide) (by decide) (by decide)

/-- C9: the success path of an explanation request returns no code field,
and its explanation is the raw completion, for every completion text. -/
theorem c9_explain_no_code (raw : List Char) :
    (explainSuccess raw).code = none ∧ (explainSuccess raw).explanation = raw :=
  ⟨rfl, rfl⟩

/-- C10: when at least two odd-indexed fenced segments pass the tag test
(and the requested language is a non-empty string, as the route validation
guarantees), the code field is the assignment made for the last tagged
segment: tagged matches overwrite earlier candidates. -/
theorem c10_last_tagged_wins (s language : List Char) (hlang : language ≠ [])
    (hm : (containsSub s codeMarker && containsSub s explMarker) = false)
    (hf : containsSub s fence = true)
    (ht : 2 ≤ (taggedBlocks language (oddIdx (pySplit fence s))).length) :
    (splitCompletion s language).code =
      taggedAssign ((taggedBlocks language (oddIdx (pySplit fence s))).getLastD []) := by
  have htne : taggedBlocks language (oddIdx (pySplit fence s)) ≠ [] := by
    intro hh
    rw [hh] at ht
    simp at ht
  have hmem : (taggedBlocks language (oddIdx (pySplit fence s))).getLastD [] ∈
      (List.map pyStrip (oddIdx (pySplit fence s))).filter (fun b => isTaggedBlock language b) :=
    getLastD_mem _ [] htne
  obtain ⟨hmm, hpred⟩ := List.mem_filter.mp hmem
  obtain ⟨b0, hb0mem, hb0eq⟩ := List.mem_map.mp hmm
  have hne2 : taggedAssign ((taggedBlocks language (oddIdx (pySplit fence s))).getLastD []) ≠ [] := by
    rw [← hb0eq]
    have hpredb : isTaggedBlock language (pyStrip b0) = true := by
      rw [hb0eq]
      exact hpred
    exact taggedAssign_ne_nil language b0 hlang hpredb
  have hcc := chooseCode_last_tagged language hlang (oddIdx (pySplit fence s)) [] htne
  have hccne : chooseCode language (oddIdx (pySplit fence s)) [] ≠ [] := by
    rw [hcc]
    exact hne2
  rw [List.getLastD_eq_getLast?] at hcc
  simp [splitCompletion, hm, hf, hccne]
  exact hcc

/-- C10 (witness): the last-tagged-wins statement instantiated on a
completion with two python-tagged blocks. -/
theorem c10_last_tagged_wins_witness :
    (splitCompletion c10ex pythonTag).code =
      taggedAssign ((taggedBlocks pythonTag (oddIdx (pySplit fence c10ex))).getLastD []) :=
  c10_last_tagged_wins c10ex pythonTag (by decide) (by decide) (by decide) (by decide)
